import Mathlib

/-!
Verification of the content-extraction and summarization-request core of
`src/app.py` (class `BlogSummarizer`).  Python strings are modelled as
`List Char`; `None`-able strings as `Option (List Char)`; the external
collaborators (the Firecrawl client, the HTTP session, BeautifulSoup's
selector engine) are modelled as oracles passed in explicitly, while every
piece of decision logic of the source is translated operation by operation.
-/

/-- A Python string, modelled as its list of characters. -/
abbrev PyStr := List Char

/-- Python truthiness of an `Optional[str]`: `None` and `""` are falsy. -/
def pyTruthy : Option PyStr → Bool
  | none => false
  | some s => !s.isEmpty

/-- The whitespace class of Python's `re` pattern `\s` and of `str.strip()`
(the ASCII part, which is all the source's regexes rely on):
space, tab, newline, carriage return, vertical tab, form feed. -/
def pyIsSpace (c : Char) : Bool :=
  c = ' ' || c = '\t' || c = '\n' || c = '\r' || c = '\x0b' || c = '\x0c'

/-- `re.sub(r'\s+', ' ', s)` (src/app.py:85 and :142): every maximal run of
whitespace characters is replaced by a single space. -/
def collapseWs : PyStr → PyStr
  | [] => []
  | [c] => if pyIsSpace c then [' '] else [c]
  | a :: b :: rest =>
    if pyIsSpace a then
      if pyIsSpace b then collapseWs (b :: rest)
      else ' ' :: collapseWs (b :: rest)
    else a :: collapseWs (b :: rest)

/-- `s.strip()` (src/app.py:86 and :144): drop leading and trailing
whitespace. -/
def stripWs (s : PyStr) : PyStr :=
  (s.dropWhile pyIsSpace).rdropWhile pyIsSpace

/-- The whitespace-normalization pass: collapse every whitespace run to a
single space, then trim (src/app.py:85-86 and :142,:144). -/
def normalizeWs (s : PyStr) : PyStr :=
  stripWs (collapseWs s)

/-- The boilerplate marker phrases of the regex at src/app.py:143, in the
order of the alternation
`(Skip to content|Copyright|All rights reserved|Privacy Policy|Terms of Service)`. -/
def boilerplateMarkers : List PyStr :=
  ["Skip to content", "Copyright", "All rights reserved", "Privacy Policy",
   "Terms of Service"].map String.toList

/-- Case-insensitive prefix test (the effect of `re.IGNORECASE` on the
ASCII-only marker phrases). -/
def ciIsPrefixOf : PyStr → PyStr → Bool
  | [], _ => true
  | _ :: _, [] => false
  | a :: as, b :: bs => (a.toLower = b.toLower) && ciIsPrefixOf as bs

/-- Does some boilerplate marker match (case-insensitively) at the head of
`s`? -/
def markerAt (s : PyStr) : Bool :=
  boilerplateMarkers.any (fun m => ciIsPrefixOf m s)

/-- `re.sub(r'(Skip to content|...|Terms of Service).*', '', s, flags=re.IGNORECASE)`
(src/app.py:143) applied to an already whitespace-collapsed string (which
therefore contains no newline, so `.*` runs to the end of the string): the
string is cut at the leftmost position where one of the marker phrases
matches, and the marker and everything after it are discarded. -/
def truncBoiler : PyStr → PyStr
  | [] => []
  | c :: rest => if markerAt (c :: rest) then [] else c :: truncBoiler rest

/-- The cleanup pass of the fallback extractor (src/app.py:141-144):
collapse whitespace runs, truncate at the first boilerplate marker, trim. -/
def cleanContent (s : PyStr) : PyStr :=
  stripWs (truncBoiler (collapseWs s))

/-! ## Summarization request builder (src/app.py:174-203) -/

/-- `max_content_length = 15000` (src/app.py:178). -/
def max_content_length : Nat := 15000

/-- The truncation step of `summarize_content` (src/app.py:179-180):
`if len(content) > max_content_length: content = content[:max_content_length] + "..."`. -/
def truncateContent (content : PyStr) : PyStr :=
  if max_content_length < content.length then
    content.take max_content_length ++ "...".toList
  else content

/-- The `length_instructions` table of src/app.py:183-187. -/
def shortInstruction : PyStr :=
  "Provide a concise 2-3 sentence summary highlighting only the most important points.".toList

/-- The `"medium"` entry of the `length_instructions` table (src/app.py:185). -/
def mediumInstruction : PyStr :=
  "Provide a comprehensive summary in 1-2 paragraphs (4-6 sentences) covering the main points and key insights.".toList

/-- The `"long"` entry of the `length_instructions` table (src/app.py:186). -/
def longInstruction : PyStr :=
  "Provide a detailed summary in 2-3 paragraphs (6-10 sentences) covering main points, supporting details, and key takeaways.".toList

/-- Lookup in the `length_instructions` dict (keys `"short"`, `"medium"`,
`"long"`). -/
def lengthInstructions (k : PyStr) : Option PyStr :=
  if k = "short".toList then some shortInstruction
  else if k = "medium".toList then some mediumInstruction
  else if k = "long".toList then some longInstruction
  else none

/-- `length_instructions.get(summary_length, length_instructions["medium"])`
(src/app.py:189). -/
def resolveLengthInstruction (summary_length : PyStr) : PyStr :=
  (lengthInstructions summary_length).getD mediumInstruction

/-- The data `summarize_content` assembles before the external inference
call: the (possibly truncated) content, the resolved length instruction and
the final prompt string (src/app.py:177-203). -/
structure SummarizationRequest where
  content : PyStr
  instruction : PyStr
  prompt : PyStr
  deriving DecidableEq

/-- The prompt f-string of src/app.py:191-203, with `{title or "Article"}`
modelled by the emptiness test Python's `or` performs on strings. -/
def summarizePrompt (title content instruction : PyStr) : PyStr :=
  "Please summarize the following blog post/article. ".toList ++ instruction ++
  "\n\nTitle: ".toList ++ (if title.isEmpty then "Article".toList else title) ++
  "\n\nContent: ".toList ++ content ++
  "\n\nFocus on:\n- Main arguments or points\n- Key insights or findings  \n- Important conclusions or takeaways\n- Actionable information if present\n\nSummary:".toList

/-- The pure request-shaping part of `summarize_content`
(src/app.py:174-203): truncation, instruction resolution, prompt assembly. -/
def summarize_content_request (title content summary_length : PyStr) : SummarizationRequest :=
  let truncated := truncateContent content
  let instruction := resolveLengthInstruction summary_length
  ⟨truncated, instruction, summarizePrompt title truncated instruction⟩

/-! ## Extraction results and the orchestrator (src/app.py:158-172) -/

/-- The `(title, content, error)` triple every extractor returns. -/
structure FcResult where
  title : Option PyStr
  content : Option PyStr
  error : Option PyStr
  deriving DecidableEq

/-- Everything `extract_content` (src/app.py:158-172) returns or does that
is observable: the `(title, content, error)` triple, the `method_used`
string, and how many times each extraction tier was invoked. -/
structure ExtractOutcome where
  result : FcResult
  method : PyStr
  primaryCalls : Nat
  fallbackCalls : Nat
  deriving DecidableEq

/-- `extract_content` (src/app.py:158-172).  The Firecrawl tier is modelled
by an oracle: `fc = none` when `self.firecrawl_client` is `None` (no
Firecrawl credential was configured, src/app.py:33), `fc = some r` when the
client exists and `extract_with_firecrawl` would return `r`.  `fb` is what
`extract_with_fallback` returns.  The acceptance test mirrors
`if not error and content and len(content.strip()) > 100` (src/app.py:166),
and an accepted Firecrawl result is returned as
`return title, content, None, method_used` (src/app.py:167). -/
def extract_content (fc : Option FcResult) (fb : FcResult) : ExtractOutcome :=
  match fc with
  | some r =>
    if !pyTruthy r.error && pyTruthy r.content
        && decide (100 < (stripWs (r.content.getD [])).length) then
      ⟨⟨r.title, r.content, none⟩, "Firecrawl".toList, 1, 0⟩
    else
      ⟨fb, "Basic Scraping".toList, 1, 1⟩
  | none => ⟨fb, "Basic Scraping".toList, 0, 1⟩

/-! ## The fallback extractor (src/app.py:94-156) -/

/-- A DOM element as `soup.select_one` returns it: a BeautifulSoup `Tag`,
which always has a `get_text` method, and whose `get('content', '')`
yields its `content` attribute when present. -/
structure Elem where
  getText : PyStr
  attrContent : Option PyStr
  deriving DecidableEq

/-- The `title_selectors` list of src/app.py:108-111, in source order. -/
def title_selectors : List PyStr :=
  ["title", "h1", ".post-title", ".entry-title", ".article-title",
   "[property=\"og:title\"]", ".headline", ".page-title"].map String.toList

/-- The `content_selectors` list of src/app.py:121-125, in source order. -/
def content_selectors : List PyStr :=
  ["article", ".post-content", ".entry-content", ".article-content",
   ".content", "main", ".post", ".blog-post", "[role=\"main\"]",
   ".story-body", ".article-body", ".post-body"].map String.toList

/-- The title loop of src/app.py:112-117.  `sel` is the selector engine
(`soup.select_one`); `acc` is the running `title` variable.  Because
`select_one` only ever returns a `Tag` and every `Tag` has a `get_text`
method, the `hasattr(title_elem, 'get_text')` test of line 115 is always
true, so the element text (stripped) is used and the
`title_elem.get('content', '')` branch is dead code. -/
def titleLoop (sel : PyStr → Option Elem) : List PyStr → Option PyStr → Option PyStr
  | [], acc => acc
  | s :: rest, acc =>
    match sel s with
    | some e =>
      let t := stripWs e.getText
      if t.isEmpty then titleLoop sel rest (some t) else some t
    | none => titleLoop sel rest acc

/-- Title resolution over the fixed selector list (src/app.py:107-117). -/
def titleResolution (sel : PyStr → Option Elem) : Option PyStr :=
  titleLoop sel title_selectors none

/-- The content loop of src/app.py:127-132.  `sel s` is
`select_one(s)` followed by `get_text(separator=' ', strip=True)` when the
element exists; `acc` is the running `content` variable.  A candidate longer
than 200 characters short-circuits the loop (`break`); a shorter candidate
is kept in `content` and the loop continues. -/
def contentLoop (sel : PyStr → Option PyStr) : List PyStr → Option PyStr → Option PyStr
  | [], acc => acc
  | s :: rest, acc =>
    match sel s with
    | some t => if 200 < t.length then some t else contentLoop sel rest (some t)
    | none => contentLoop sel rest acc

/-- Body resolution (src/app.py:119-138): the selector loop, then
`if not content or len(content) < 200:` replace `content` by the body
element's text when a body element exists.  The boolean records whether the
document-body fallback replaced the candidate. -/
def bodyResolution (sel : PyStr → Option PyStr) (body : Option PyStr) :
    Option PyStr × Bool :=
  let c := contentLoop sel content_selectors none
  if !pyTruthy c || decide ((c.getD []).length < 200) then
    match body with
    | some b => (some b, true)
    | none => (c, false)
  else (c, false)

/-- A successfully fetched and parsed page, as the fallback extractor sees
it after the `decompose()` pass of src/app.py:103-104: the selector engine
for the title selectors, the selector engine composed with
`get_text(separator=' ', strip=True)` for the content selectors, and the
text of the `body` element when one exists (`soup.find('body')`,
src/app.py:136-138). -/
structure FallbackPage where
  titleSel : PyStr → Option Elem
  contentSel : PyStr → Option PyStr
  bodyText : Option PyStr

/-- The success path of `extract_with_fallback` (src/app.py:96-146):
resolve the title, resolve the body, run the cleanup pass when the content
is truthy, and return with `error = None`. -/
def extract_with_fallback_ok (p : FallbackPage) : FcResult :=
  let title := titleResolution p.titleSel
  let content := (bodyResolution p.contentSel p.bodyText).1
  let content := if pyTruthy content then content.map cleanContent else content
  ⟨title, content, none⟩

/-- The transport-layer failures the `except` clauses of src/app.py:148-156
distinguish: `requests.exceptions.Timeout`,
`requests.exceptions.ConnectionError`, `requests.exceptions.HTTPError`
(carrying the response's status code and reason phrase), and the generic
`Exception` catch-all (carrying `str(e)`). -/
inductive TransportFailure where
  | timeout : TransportFailure
  | connectionError : TransportFailure
  | httpError (status : Nat) (reason : PyStr) : TransportFailure
  | genericError (msg : PyStr) : TransportFailure
  deriving DecidableEq

/-- The error string each `except` clause of src/app.py:148-156 returns. -/
def fallbackErrorMessage : TransportFailure → PyStr
  | .timeout => "Request timeout - the website took too long to respond".toList
  | .connectionError => "Connection error - unable to reach the website".toList
  | .httpError status reason =>
    "HTTP error ".toList ++ (Nat.repr status).toList ++ " - ".toList ++ reason
  | .genericError msg => "Error extracting content: ".toList ++ msg

/-- `extract_with_fallback` (src/app.py:94-156): either the transport layer
(the `session.get` / `raise_for_status` of lines 97-98, or anything else the
body raises) fails and the matching `except` clause returns
`(None, None, message)`, or the page is fetched and the success path runs. -/
def extract_with_fallback : Except TransportFailure FallbackPage → FcResult
  | .error f => ⟨none, none, some (fallbackErrorMessage f)⟩
  | .ok p => extract_with_fallback_ok p

/-- The four error categories of the claim: timeout, connection error,
HTTP status error, generic catch-all. -/
inductive ErrCategory where
  | timeout : ErrCategory
  | connection : ErrCategory
  | httpStatus : ErrCategory
  | generic : ErrCategory
  deriving DecidableEq

/-- Which category a transport failure belongs to. -/
def failureCategory : TransportFailure → ErrCategory
  | .timeout => .timeout
  | .connectionError => .connection
  | .httpError _ _ => .httpStatus
  | .genericError _ => .generic

/-- A caller-side classifier: recover the category from the returned error
message by its fixed leading phrase.  Its existence is what makes the four
categories distinguishable. -/
def messageCategory (m : PyStr) : Option ErrCategory :=
  if "Request timeout".toList.isPrefixOf m then some .timeout
  else if "Connection error".toList.isPrefixOf m then some .connection
  else if "HTTP error".toList.isPrefixOf m then some .httpStatus
  else if "Error extracting content:".toList.isPrefixOf m then some .generic
  else none

/-! ## The URL validator (src/app.py:41-47) and its `urlparse` collaborator

The collaborator is `urllib.parse.urlsplit` of patched CPython
(3.8.17 / 3.9.17 / 3.10.12 / 3.11.4 / 3.12 and later, the releases that
carry the CVE-2023-24329 lstrip fix, the bracketed-host check and the
first-character scheme test): strip leading C0-control/space characters,
remove the unsafe bytes tab/CR/LF, split off a scheme at the first colon
when the prefix is scheme-like, read the netloc after a leading `//`, and
raise `ValueError` on mismatched netloc brackets, on an invalid bracketed
host (`_check_bracketed_host`), or on a netloc whose NFKC normalization
introduces a delimiter (`_checknetloc`).  The two genuinely external pieces
— `unicodedata.normalize('NFKC', ·)` and the `re`/`ipaddress` validation
inside `_check_bracketed_host` — are passed as oracles `nfkc` and
`bracketOk`, like the other collaborators of this file. -/

/-- The character class `_WHATWG_C0_CONTROL_OR_SPACE`: the C0 control
characters and the space. -/
def isC0ControlOrSpace (c : Char) : Bool :=
  decide (c.val ≤ 0x20)

/-- `url.lstrip(_WHATWG_C0_CONTROL_OR_SPACE)`, the first step of
`urlsplit`. -/
def lstripC0 (u : PyStr) : PyStr :=
  u.dropWhile isC0ControlOrSpace

/-- `urlsplit` removes the unsafe bytes tab, carriage return and newline
from the URL after the lstrip. -/
def removeUnsafeBytes (u : PyStr) : PyStr :=
  u.filter (fun c => !(c = '\t' || c = '\r' || c = '\n'))

/-- `urllib.parse.scheme_chars`: the characters allowed in a scheme. -/
def scheme_chars : List Char :=
  ("abcdefghijklmnopqrstuvwxyzABCDEFGHIJKLMNOPQRSTUVWXYZ0123456789+-.").toList

/-- Split a string at its first `':'`: `some (before, after)` when a colon
occurs (`url.find(':')` succeeds), `none` otherwise.  `before` never
contains a colon. -/
def splitAtColon : PyStr → Option (PyStr × PyStr)
  | [] => none
  | c :: rest =>
    if c = ':' then some ([], rest)
    else (splitAtColon rest).map (fun p => (c :: p.1, p.2))

/-- `urlsplit`'s scheme test: the part before the first colon is a scheme
when it is non-empty, starts with an ASCII letter, and consists of scheme
characters only. -/
def isSchemeLike (s : PyStr) : Bool :=
  match s with
  | [] => false
  | c :: _ => c.isAlpha && s.all (fun d => decide (d ∈ scheme_chars))

/-- The characters `_splitnetloc` stops the authority component at. -/
def isNetlocDelim (c : Char) : Bool :=
  c = '/' || c = '?' || c = '#'

/-- `urlsplit`'s `Invalid IPv6 URL` test: a `[` without `]` in the netloc,
or a `]` without `[`, raises `ValueError`. -/
def badBrackets (nl : PyStr) : Bool :=
  (decide ('[' ∈ nl) && !(decide (']' ∈ nl))) ||
  (decide (']' ∈ nl) && !(decide ('[' ∈ nl)))

/-- The two components of a parse that `is_valid_url` inspects. -/
structure UrlParts where
  scheme : PyStr
  netloc : PyStr
  deriving DecidableEq

/-- `_splitnetloc(url, 2)`'s netloc component: the text after the leading
`//` up to the first `/`, `?` or `#`. -/
def splitNetloc (rest : PyStr) : PyStr :=
  (rest.drop 2).takeWhile (fun c => !isNetlocDelim c)

/-- Are both square brackets present in the netloc (the guard of the
bracketed-host check)? -/
def hasBothBrackets (nl : PyStr) : Bool :=
  decide ('[' ∈ nl) && decide (']' ∈ nl)

/-- `netloc.partition('[')[2].partition(']')[0]`: the text after the first
`[` and before the following `]`, the argument `_check_bracketed_host`
validates as an IPv6 or IPvFuture address. -/
def bracketedHost (nl : PyStr) : PyStr :=
  ((nl.dropWhile (fun c => !decide (c = '['))).drop 1).takeWhile (fun c => !decide (c = ']'))

/-- `str.isascii()`. -/
def pyIsAscii (s : PyStr) : Bool :=
  s.all (fun c => decide (c.val ≤ 0x7f))

/-- The netloc with `@`, `:`, `#` and `?` removed, as `_checknetloc`
prepares it before NFKC normalization. -/
def netlocStripped (netloc : PyStr) : PyStr :=
  netloc.filter (fun c =>
    !(decide (c = '@') || decide (c = ':') || decide (c = '#') || decide (c = '?')))

/-- `_checknetloc` (CPython 3.7.3 and later): an empty or all-ASCII netloc
passes; otherwise the netloc minus `@:#?` is NFKC-normalized — the
`unicodedata` collaborator is the oracle `nfkc` — and a `ValueError` is
raised exactly when the normalization changed the string and the result
contains one of `/?#@:`.  `true` means no exception. -/
def checknetlocOk (nfkc : PyStr → PyStr) (netloc : PyStr) : Bool :=
  if netloc.isEmpty || pyIsAscii netloc then true
  else if netlocStripped netloc = nfkc (netlocStripped netloc) then true
  else !(['/', '?', '#', '@', ':'].any (fun c => decide (c ∈ nfkc (netlocStripped netloc))))

/-- The netloc-reading step of `urlsplit`: when the remainder after the
scheme starts with `//`, the netloc runs up to the first `/`, `?` or `#`;
`none` models a `ValueError`: mismatched square brackets, a bracketed host
`_check_bracketed_host` rejects (the `re`/`ipaddress` collaborator is the
oracle `bracketOk`), or a netloc `_checknetloc` rejects.  Without `//` the
netloc is empty and `_checknetloc('')` returns at once, so no check is
needed. -/
def urlNetloc (nfkc : PyStr → PyStr) (bracketOk : PyStr → Bool)
    (scheme rest : PyStr) : Option UrlParts :=
  if rest.take 2 = ['/', '/'] then
    if badBrackets (splitNetloc rest) then none
    else if hasBothBrackets (splitNetloc rest)
        && !bracketOk (bracketedHost (splitNetloc rest)) then none
    else if !checknetlocOk nfkc (splitNetloc rest) then none
    else some ⟨scheme, splitNetloc rest⟩
  else some ⟨scheme, []⟩

/-- The scheme-splitting step of `urlsplit`: when the part before the first
colon is scheme-like, the scheme is that part lower-cased and the rest
follows the colon; otherwise the scheme is empty and the whole string is the
rest. -/
def urlsplitRest (nfkc : PyStr → PyStr) (bracketOk : PyStr → Bool)
    (url : PyStr) : Option UrlParts :=
  match splitAtColon url with
  | some q =>
    if isSchemeLike q.1 then urlNetloc nfkc bracketOk (q.1.map Char.toLower) q.2
    else urlNetloc nfkc bracketOk [] url
  | none => urlNetloc nfkc bracketOk [] url

/-- `urllib.parse.urlparse` of patched CPython, restricted to the scheme and
netloc components that `is_valid_url` reads: lstrip C0-control/space
characters, remove unsafe bytes, split off a scheme at the first colon when
the prefix is scheme-like (lower-casing it), read the netloc after a leading
`//` up to the first `/`, `?` or `#`, and fail (`none` = `ValueError`) on
mismatched brackets, an invalid bracketed host, or an NFKC-expanding
netloc. -/
def pyUrlparse (nfkc : PyStr → PyStr) (bracketOk : PyStr → Bool)
    (url0 : PyStr) : Option UrlParts :=
  urlsplitRest nfkc bracketOk (removeUnsafeBytes (lstripC0 url0))

/-- `is_valid_url` (src/app.py:41-47): `urlparse` inside `try`, then
`all([result.scheme, result.netloc])`; any exception yields `False`. -/
def is_valid_url (nfkc : PyStr → PyStr) (bracketOk : PyStr → Bool)
    (url : PyStr) : Bool :=
  match pyUrlparse nfkc bracketOk url with
  | some r => !r.scheme.isEmpty && !r.netloc.isEmpty
  | none => false

/-- The spec's reading of validity: the cleaned (lstripped, unsafe-byte-
free) string splits as `scheme ++ ":" ++ "//" ++ rest` with a non-empty
scheme-like scheme, and the authority component read from `rest` is
non-empty and passes the bracket, bracketed-host and NFKC checks. -/
def ValidUrl (nfkc : PyStr → PyStr) (bracketOk : PyStr → Bool) (u : PyStr) : Prop :=
  ∃ sch rest, removeUnsafeBytes (lstripC0 u) = sch ++ ':' :: '/' :: '/' :: rest ∧
    isSchemeLike sch = true ∧
    (rest.takeWhile (fun c => !isNetlocDelim c)) ≠ [] ∧
    badBrackets (rest.takeWhile (fun c => !isNetlocDelim c)) = false ∧
    (hasBothBrackets (rest.takeWhile (fun c => !isNetlocDelim c))
      && !bracketOk (bracketedHost (rest.takeWhile (fun c => !isNetlocDelim c)))) = false ∧
    checknetlocOk nfkc (rest.takeWhile (fun c => !isNetlocDelim c)) = true

/-! ## Concrete fixtures used by counterexamples and failing inputs -/

/-- A parsed page whose body text is nothing but a boilerplate notice: no
content selector matches and `soup.find('body')` yields `Copyright 2024`. -/
def c2Page : FallbackPage :=
  ⟨fun _ => none, fun _ => none, some "Copyright 2024".toList⟩

/-- A selector engine for a document whose only matching title selector is
the `og:title` meta property: the element's text is empty (a `meta` tag has
no children) while its `content` attribute carries the title. -/
def ogTitlePage : PyStr → Option Elem :=
  fun s =>
    if s = "[property=\"og:title\"]".toList then
      some ⟨[], some "Example Title".toList⟩
    else none

/-- The predicate claim C2 asserts of every orchestrator return: exactly one
of the content and the error is non-empty. -/
def exactlyOneNonEmpty (r : FcResult) : Prop :=
  (pyTruthy r.content = true ∧ pyTruthy r.error = false) ∨
  (pyTruthy r.content = false ∧ pyTruthy r.error = true)

/-! ## Whitespace normalization: helper lemmas -/

/-- A string in whitespace-normal form: every whitespace character in it is
a plain space, and no two adjacent characters are both whitespace. -/
def WsNormed (s : PyStr) : Prop :=
  (∀ c ∈ s, pyIsSpace c = true → c = ' ') ∧
  List.Chain' (fun a b => ¬(pyIsSpace a = true ∧ pyIsSpace b = true)) s

theorem collapseWs_head_nonspace (b : Char) (rest : PyStr) (hb : pyIsSpace b = false) :
    ∃ t, collapseWs (b :: rest) = b :: t := by
  cases rest with
  | nil => exact ⟨[], by simp [collapseWs, hb]⟩
  | cons r rs => exact ⟨collapseWs (r :: rs), by simp [collapseWs, hb]⟩

theorem collapseWs_normed (s : PyStr) : WsNormed (collapseWs s) := by
  induction s using collapseWs.induct with
  | case1 => exact ⟨by simp [collapseWs], by simp [collapseWs]⟩
  | case2 c hc =>
    rw [collapseWs, if_pos hc]
    refine ⟨?_, List.chain'_singleton ' '⟩
    intro d hd _
    simpa using hd
  | case3 c hc =>
    rw [collapseWs, if_neg hc]
    refine ⟨?_, List.chain'_singleton c⟩
    intro d hd hsp
    rw [List.mem_singleton] at hd
    subst hd
    exact absurd hsp hc
  | case4 a b rest ha hb ih =>
    rw [collapseWs, if_pos ha, if_pos hb]
    exact ih
  | case5 a b rest ha hb ih =>
    rw [collapseWs, if_pos ha, if_neg hb]
    obtain ⟨mem, ch⟩ := ih
    refine ⟨?_, ?_⟩
    · intro c hc hsp
      rcases List.mem_cons.1 hc with h | h
      · exact h
      · exact mem c h hsp
    · rw [List.chain'_cons']
      refine ⟨?_, ch⟩
      intro h hh
      obtain ⟨t, ht⟩ := collapseWs_head_nonspace b rest (by simpa using hb)
      rw [ht] at hh
      simp only [List.head?_cons, Option.mem_def, Option.some.injEq] at hh
      subst hh
      intro hcon
      exact hb hcon.2
  | case6 a b rest ha ih =>
    rw [collapseWs, if_neg ha]
    obtain ⟨mem, ch⟩ := ih
    refine ⟨?_, ?_⟩
    · intro c hc hsp
      rcases List.mem_cons.1 hc with h | h
      · subst h; exact absurd hsp ha
      · exact mem c h hsp
    · rw [List.chain'_cons']
      refine ⟨?_, ch⟩
      intro h _ hcon
      exact ha hcon.1

theorem WsNormed.tail {c : Char} {s : PyStr} (h : WsNormed (c :: s)) : WsNormed s := by
  obtain ⟨mem, ch⟩ := h
  exact ⟨fun d hd => mem d (List.mem_cons_of_mem c hd), ch.tail⟩

theorem collapseWs_eq_self (s : PyStr) (h : WsNormed s) : collapseWs s = s := by
  induction s using collapseWs.induct with
  | case1 => rfl
  | case2 c hc =>
    rw [collapseWs, if_pos hc, h.1 c (List.mem_singleton_self c) hc]
  | case3 c hc => rw [collapseWs, if_neg hc]
  | case4 a b rest ha hb ih =>
    exfalso
    have := (List.chain'_cons.1 h.2).1
    exact this ⟨ha, hb⟩
  | case5 a b rest ha hb ih =>
    rw [collapseWs, if_pos ha, if_neg hb, ih h.tail,
      h.1 a (List.mem_cons_self a _) ha]
  | case6 a b rest ha ih =>
    rw [collapseWs, if_neg ha, ih h.tail]

theorem wsNormed_of_suffix {s t : PyStr} (h : WsNormed s) (hst : t <:+ s) : WsNormed t :=
  ⟨fun c hc => h.1 c (hst.subset hc), h.2.suffix hst⟩

theorem wsNormed_of_isPrefix {s t : PyStr} (h : WsNormed s) (hst : t <+: s) : WsNormed t :=
  ⟨fun c hc => h.1 c (hst.subset hc), List.Chain'.prefix h.2 hst⟩

theorem wsNormed_stripWs (s : PyStr) (h : WsNormed s) : WsNormed (stripWs s) := by
  unfold stripWs
  exact wsNormed_of_isPrefix
    (wsNormed_of_suffix h (List.dropWhile_suffix pyIsSpace))
    ( List.rdropWhile_prefix pyIsSpace _)

theorem dropWhile_of_no_head {p : Char → Bool} {y t : PyStr}
    (hy : y.dropWhile p = y) (ht : t <+: y) : t.dropWhile p = t := by
  cases t with
  | nil => rfl
  | cons a l =>
    obtain ⟨r, hr⟩ := ht
    have hy' : y = a :: (l ++ r) := by rw [← hr]; rfl
    have hpa : p a = false := by
      by_contra hpa
      rw [Bool.not_eq_false] at hpa
      rw [hy', List.dropWhile_cons, if_pos hpa] at hy
      have hlen := congrArg List.length hy
      have hle := (List.dropWhile_suffix (l := l ++ r) p).sublist.length_le
      simp only [List.length_cons] at hlen
      omega
    rw [List.dropWhile_cons, if_neg (by simp [hpa])]

theorem stripWs_idem (s : PyStr) : stripWs (stripWs s) = stripWs s := by
  unfold stripWs
  have h1 : (s.dropWhile pyIsSpace).dropWhile pyIsSpace = s.dropWhile pyIsSpace :=
    List.dropWhile_idempotent pyIsSpace s
  rw [dropWhile_of_no_head h1 ( List.rdropWhile_prefix pyIsSpace _),
    List.rdropWhile_idempotent]

/-- C8: the whitespace-normalization pass (collapse every run of whitespace
to a single space, then trim) is idempotent: applying it twice yields the
same string as applying it once, for every string. -/
theorem normalizeWs_idempotent (s : PyStr) : normalizeWs (normalizeWs s) = normalizeWs s := by
  unfold normalizeWs
  rw [collapseWs_eq_self _ (wsNormed_stripWs _ (collapseWs_normed s)), stripWs_idem]

/-! ## Boilerplate truncation: helper lemma -/

theorem truncBoiler_spec (t : PyStr) :
    ∃ i, i ≤ t.length ∧ truncBoiler t = t.take i ∧
      (∀ j, j < i → markerAt (t.drop j) = false) ∧
      (i = t.length ∨ markerAt (t.drop i) = true) := by
  induction t with
  | nil => exact ⟨0, by simp [truncBoiler]⟩
  | cons c rest ih =>
    by_cases h : markerAt (c :: rest) = true
    · refine ⟨0, Nat.zero_le _, ?_, ?_, ?_⟩
      · rw [truncBoiler, if_pos h]; rfl
      · intro j hj; omega
      · right; simpa using h
    · obtain ⟨i, hle, heq, hfree, hend⟩ := ih
      refine ⟨i + 1, by simpa using hle, ?_, ?_, ?_⟩
      · rw [truncBoiler, if_neg h, List.take_succ_cons, heq]
      · intro j hj
        cases j with
        | zero => simpa using h
        | succ k =>
          rw [List.drop_succ_cons]
          exact hfree k (by omega)
      · rw [List.drop_succ_cons]
        rcases hend with h' | h'
        · left; simp [h']
        · right; exact h'

/-! ## Error-message prefixes: helper lemmas -/

theorem isPrefixOf_append_of {p q : PyStr} (rest : PyStr) (h : p.isPrefixOf q = true) :
    p.isPrefixOf (q ++ rest) = true := by
  rw [ List.isPrefixOf_iff_prefix] at h ⊢
  exact h.trans (List.prefix_append q rest)

theorem not_isPrefixOf_append {p q : PyStr} (rest : PyStr) (h1 : p.isPrefixOf q = false)
    (h2 : q.isPrefixOf p = false) : p.isPrefixOf (q ++ rest) = false := by
  have h1' : ¬ p <+: q :=
    fun hp => absurd ( List.isPrefixOf_iff_prefix.2 hp) (by simp [h1])
  have h2' : ¬ q <+: p :=
    fun hp => absurd ( List.isPrefixOf_iff_prefix.2 hp) (by simp [h2])
  cases hc : p.isPrefixOf (q ++ rest) with
  | false => rfl
  | true =>
    exfalso
    rw [ List.isPrefixOf_iff_prefix] at hc
    rcases List.prefix_or_prefix_of_prefix hc (List.prefix_append q rest) with hpq | hqp
    · exact h1' hpq
    · exact h2' hqp

theorem messageCategory_fallback (f : TransportFailure) :
    messageCategory (fallbackErrorMessage f) = some (failureCategory f) := by
  cases f with
  | timeout => decide
  | connectionError => decide
  | httpError status reason =>
    have hmsg : fallbackErrorMessage (.httpError status reason) =
        "HTTP error ".toList ++ ((Nat.repr status).toList ++ (" - ".toList ++ reason)) := by
      simp [fallbackErrorMessage, List.append_assoc]
    rw [hmsg, messageCategory,
      if_neg (by rw [not_isPrefixOf_append _ (by decide) (by decide)]; exact Bool.false_ne_true),
      if_neg (by rw [not_isPrefixOf_append _ (by decide) (by decide)]; exact Bool.false_ne_true),
      if_pos (isPrefixOf_append_of _ (by decide))]
    rfl
  | genericError msg =>
    have hmsg : fallbackErrorMessage (.genericError msg) =
        "Error extracting content: ".toList ++ msg := rfl
    rw [hmsg, messageCategory,
      if_neg (by rw [not_isPrefixOf_append _ (by decide) (by decide)]; exact Bool.false_ne_true),
      if_neg (by rw [not_isPrefixOf_append _ (by decide) (by decide)]; exact Bool.false_ne_true),
      if_neg (by rw [not_isPrefixOf_append _ (by decide) (by decide)]; exact Bool.false_ne_true),
      if_pos (isPrefixOf_append_of _ (by decide))]
    rfl

/-! ## URL parsing: helper lemmas -/

theorem splitAtColon_eq_some {u b a : PyStr} (h : splitAtColon u = some (b, a)) :
    u = b ++ ':' :: a ∧ ':' ∉ b := by
  induction u generalizing b a with
  | nil => simp [splitAtColon] at h
  | cons c rest ih =>
    rw [splitAtColon] at h
    by_cases hc : c = ':'
    · rw [if_pos hc] at h
      obtain ⟨hb, ha⟩ := Prod.mk.injEq .. ▸ Option.some.inj h
      subst hb; subst ha; subst hc
      exact ⟨rfl, List.not_mem_nil ':'⟩
    · rw [if_neg hc] at h
      match hs : splitAtColon rest with
      | none => rw [hs] at h; simp at h
      | some (b', a') =>
        rw [hs] at h
        simp only [Option.map_some', Option.some.injEq, Prod.mk.injEq] at h
        obtain ⟨hb, ha⟩ := h
        obtain ⟨he, hn⟩ := ih hs
        subst ha
        rw [← hb, he]
        refine ⟨rfl, ?_⟩
        intro hmem
        rcases List.mem_cons.1 hmem with h' | h'
        · exact hc h'.symm
        · exact hn h'

theorem splitAtColon_append (b a : PyStr) (hn : ':' ∉ b) :
    splitAtColon (b ++ ':' :: a) = some (b, a) := by
  induction b with
  | nil => simp [splitAtColon]
  | cons c bs ih =>
    have hc : c ≠ ':' := fun h => hn (h ▸ List.mem_cons_self c bs)
    rw [List.cons_append, splitAtColon, if_neg hc,
      ih (fun h => hn (List.mem_cons_of_mem c h))]
    rfl

theorem take_two_eq {l : PyStr} (h : l.take 2 = ['/', '/']) :
    l = '/' :: '/' :: l.drop 2 := by
  match l with
  | [] => simp at h
  | [x] => simp at h
  | x :: y :: rest =>
    simp only [List.take_succ_cons, List.take_zero, List.take_one] at h
    have hx : x = '/' := by injection h
    have hy : y = '/' := by
      injection h with h1 h2
      injection h2
    subst hx; subst hy
    rfl

theorem scheme_no_colon {sch : PyStr} (h : isSchemeLike sch = true) : ':' ∉ sch := by
  intro hmem
  match sch, h with
  | c :: cs, h =>
    rw [isSchemeLike] at h
    have hall := (Bool.and_eq_true .. ▸ h).2
    rw [List.all_eq_true] at hall
    have := hall ':' hmem
    simp [scheme_chars] at this

/-! ## Claim theorems -/

/-- C4: in the Summarization Request Builder, content longer than 15,000
characters is cut to its first 15,000 characters plus the 3-character
ellipsis marker (so content of length 20,000 yields a content field of
length exactly 15,003), and content of length at most 15,000 is left
unchanged. -/
theorem summarize_request_truncation (title content mode : PyStr) :
    (15000 < content.length →
      (summarize_content_request title content mode).content =
        content.take 15000 ++ "...".toList ∧
      (summarize_content_request title content mode).content.length = 15003) ∧
    (content.length ≤ 15000 →
      (summarize_content_request title content mode).content = content) ∧
    (summarize_content_request title (List.replicate 20000 'x') mode).content.length
      = 15003 := by
  have hreq : ∀ c : PyStr,
      (summarize_content_request title c mode).content = truncateContent c :=
    fun _ => rfl
  refine ⟨fun h => ?_, fun h => ?_, ?_⟩
  · have ht : truncateContent content = content.take 15000 ++ "...".toList := by
      unfold truncateContent max_content_length
      rw [if_pos h]
    refine ⟨by rw [hreq, ht], ?_⟩
    rw [hreq, ht, List.length_append, List.length_take,
      Nat.min_eq_left (le_of_lt h)]
    decide
  · rw [hreq]
    unfold truncateContent max_content_length
    rw [if_neg (by omega)]
  · rw [hreq]
    unfold truncateContent max_content_length
    rw [if_pos (by rw [List.length_replicate]; omega), List.length_append,
      List.take_replicate, List.length_replicate]
    decide

/-- C5: for every length mode other than `"short"`, `"medium"` and
`"long"`, the Summarization Request Builder resolves the length instruction
to the Medium entry of the instruction table, without failing (the builder
is a total function). -/
theorem resolve_instruction_unrecognized (title content mode : PyStr)
    (h1 : mode ≠ "short".toList) (h2 : mode ≠ "medium".toList)
    (h3 : mode ≠ "long".toList) :
    (summarize_content_request title content mode).instruction = mediumInstruction := by
  show resolveLengthInstruction mode = mediumInstruction
  unfold resolveLengthInstruction lengthInstructions
  rw [if_neg h1, if_neg h2, if_neg h3]
  rfl

/-- Witness for C5 at the concrete unrecognized mode `"banana"`. -/
theorem resolve_instruction_unrecognized_witness :
    (summarize_content_request [] [] "banana".toList).instruction = mediumInstruction :=
  resolve_instruction_unrecognized [] [] ("banana".toList)
    (by decide) (by decide) (by decide)

/-- C6: the fallback cleanup pass first collapses whitespace runs, then cuts
the text at the leftmost position where a boilerplate marker phrase matches
case-insensitively (no marker matches at any earlier position; the marker
and everything after it are discarded), then trims; in particular cleaning
`"A B copyright C"` yields exactly `"A B"`. -/
theorem cleanContent_truncates_at_first_marker :
    (∀ s : PyStr, ∃ i, i ≤ (collapseWs s).length ∧
      cleanContent s = stripWs ((collapseWs s).take i) ∧
      (∀ j, j < i → markerAt ((collapseWs s).drop j) = false) ∧
      (i = (collapseWs s).length ∨ markerAt ((collapseWs s).drop i) = true)) ∧
    cleanContent "A B copyright C".toList = "A B".toList := by
  refine ⟨fun s => ?_, by decide⟩
  obtain ⟨i, hle, heq, hfree, hend⟩ := truncBoiler_spec (collapseWs s)
  refine ⟨i, hle, ?_, hfree, hend⟩
  unfold cleanContent
  rw [heq]

/-- C3 (code evaluation at the failing input): for a document whose only
matching title selector is the `og:title` meta property, whose element text
is empty while its `content` attribute is `"Example Title"`, the title loop
resolves the title to the empty string taken from the element text — the
`content` attribute is never read, because `hasattr(title_elem, 'get_text')`
is true for every tag `select_one` can return, so the
`title_elem.get('content', '')` branch of src/app.py:115 is dead code. -/
theorem titleResolution_og_meta_ignored :
    ogTitlePage "[property=\"og:title\"]".toList =
      some ⟨[], some "Example Title".toList⟩ ∧
    titleResolution ogTitlePage = some [] :=
  ⟨by decide, by decide⟩

/-- C10: when the content-selector loop finishes with a candidate of length
exactly 200, that candidate is neither accepted by the short-circuit (which
needs length strictly greater than 200) nor replaced by the document-body
fallback (which needs absence/emptiness or length strictly below 200), so
it is returned as the body with the fallback unused. -/
theorem bodyResolution_boundary_200 (sel : PyStr → Option PyStr)
    (body : Option PyStr) (t : PyStr)
    (h1 : contentLoop sel content_selectors none = some t)
    (h2 : t.length = 200) :
    bodyResolution sel body = (some t, false) := by
  have hne : ¬t.isEmpty = true := by
    intro h
    rw [List.isEmpty_iff] at h
    rw [h] at h2
    simp at h2
  have hred : bodyResolution sel body =
      if !pyTruthy (contentLoop sel content_selectors none)
          || decide (((contentLoop sel content_selectors none).getD []).length < 200) then
        match body with
        | some b => (some b, true)
        | none => (contentLoop sel content_selectors none, false)
      else (contentLoop sel content_selectors none, false) := rfl
  rw [hred, h1]
  rw [if_neg ?hcond]
  case hcond =>
    simp only [pyTruthy, Option.getD_some, Bool.not_not, Bool.or_eq_true,
      decide_eq_true_eq, h2]
    rintro (h | h)
    · exact hne (by simpa using h)
    · omega

set_option maxRecDepth 4000 in
/-- Witness for C10: a page on which every content selector yields the same
200-character text and a body element exists; the loop candidate is
returned and the body fallback is not applied. -/
theorem bodyResolution_boundary_200_witness :
    bodyResolution (fun _ => some (List.replicate 200 'a')) (some "ZZZ".toList) =
      (some (List.replicate 200 'a'), false) :=
  bodyResolution_boundary_200 (fun _ => some (List.replicate 200 'a'))
    (some "ZZZ".toList) (List.replicate 200 'a') (by decide)
    (List.length_replicate 200 'a')

/-- C2 (counterexample): on the page whose body text is only a copyright
notice, the fallback extractor's cleanup empties the content and no error is
set, so the orchestrator returns with content and error both empty — the
claimed "exactly one non-empty" invariant fails. -/
theorem extract_content_not_exactly_one :
    ¬ exactlyOneNonEmpty
      (extract_content none (extract_with_fallback (.ok c2Page))).result := by
  unfold exactlyOneNonEmpty
  decide

/-- C2 (amended): on every return from the orchestrator at most one of
content and error is non-empty (they are never both non-empty), though both
may be empty, as the counterexample shows. -/
theorem extract_content_at_most_one (fc : Option FcResult)
    (o : Except TransportFailure FallbackPage) :
    pyTruthy (extract_content fc (extract_with_fallback o)).result.content = false ∨
    pyTruthy (extract_content fc (extract_with_fallback o)).result.error = false := by
  have hfb : pyTruthy (extract_with_fallback o).content = false ∨
      pyTruthy (extract_with_fallback o).error = false := by
    cases o with
    | error f => left; rfl
    | ok p => right; rfl
  cases fc with
  | none => exact hfb
  | some r =>
    have hred : extract_content (some r) (extract_with_fallback o) =
        if !pyTruthy r.error && pyTruthy r.content
            && decide (100 < (stripWs (r.content.getD [])).length) then
          ⟨⟨r.title, r.content, none⟩, "Firecrawl".toList, 1, 0⟩
        else ⟨extract_with_fallback o, "Basic Scraping".toList, 1, 1⟩ := rfl
    cases hb : (!pyTruthy r.error && pyTruthy r.content
        && decide (100 < (stripWs (r.content.getD [])).length)) with
    | true => rw [hred, if_pos hb]; right; rfl
    | false => rw [hred, if_neg (by simp [hb])]; exact hfb

/-- C7: on every transport failure the fallback extractor returns (rather
than throws) a result whose error is set and whose content is absent; the
error message determines one of the four categories (timeout, connection
error, HTTP status error, generic catch-all) via its fixed leading phrase,
and distinct failure kinds always yield distinct error messages. -/
theorem fallback_transport_error_categories (f : TransportFailure) :
    (extract_with_fallback (.error f)).error = some (fallbackErrorMessage f) ∧
    (extract_with_fallback (.error f)).content = none ∧
    messageCategory (fallbackErrorMessage f) = some (failureCategory f) ∧
    ∀ g : TransportFailure, failureCategory f ≠ failureCategory g →
      fallbackErrorMessage f ≠ fallbackErrorMessage g := by
  refine ⟨rfl, rfl, messageCategory_fallback f, ?_⟩
  intro g hne heq
  apply hne
  have h1 := messageCategory_fallback f
  rw [heq, messageCategory_fallback g] at h1
  exact (Option.some.inj h1).symm

/-- C1: the orchestrator returns the primary result with method
`"Firecrawl"` exactly when a primary client is configured, the primary
attempt produced no (truthy) error, and its content is truthy with trimmed
length above 100; in that case the fallback is not invoked.  In every other
case it invokes the fallback exactly once, returns its result as-is, and the
method is `"Basic Scraping"`; with no primary configured the primary is
never invoked (zero calls). -/
theorem extract_content_two_tier (fc : Option FcResult) (fb : FcResult) :
    ((extract_content fc fb).method = "Firecrawl".toList ↔
      ∃ r, fc = some r ∧ pyTruthy r.error = false ∧ pyTruthy r.content = true ∧
        100 < (stripWs (r.content.getD [])).length) ∧
    (∀ r, fc = some r → pyTruthy r.error = false → pyTruthy r.content = true →
      100 < (stripWs (r.content.getD [])).length →
      extract_content fc fb =
        ⟨⟨r.title, r.content, none⟩, "Firecrawl".toList, 1, 0⟩) ∧
    ((extract_content fc fb).method ≠ "Firecrawl".toList →
      extract_content fc fb =
        ⟨fb, "Basic Scraping".toList, (extract_content fc fb).primaryCalls, 1⟩) ∧
    (fc = none → extract_content fc fb = ⟨fb, "Basic Scraping".toList, 0, 1⟩) ∧
    (fc ≠ none → (extract_content fc fb).primaryCalls = 1) := by
  cases fc with
  | none =>
    refine ⟨⟨fun h => absurd (show ("Basic Scraping".toList : PyStr) = "Firecrawl".toList from h) (by decide), ?_⟩, ?_, fun _ => rfl, fun _ => rfl, ?_⟩
    · rintro ⟨r, hr, -⟩
      exact Option.noConfusion hr
    · intro r hr
      exact Option.noConfusion hr
    · intro h
      exact absurd rfl h
  | some r =>
    have hred : extract_content (some r) fb =
        if !pyTruthy r.error && pyTruthy r.content
            && decide (100 < (stripWs (r.content.getD [])).length) then
          ⟨⟨r.title, r.content, none⟩, "Firecrawl".toList, 1, 0⟩
        else ⟨fb, "Basic Scraping".toList, 1, 1⟩ := rfl
    by_cases hc : pyTruthy r.error = false ∧ pyTruthy r.content = true ∧
        100 < (stripWs (r.content.getD [])).length
    · have hb : (!pyTruthy r.error && pyTruthy r.content
          && decide (100 < (stripWs (r.content.getD [])).length)) = true := by
        obtain ⟨h1, h2, h3⟩ := hc
        simp [h1, h2, h3]
      rw [hred, if_pos hb]
      refine ⟨⟨fun _ => ⟨r, rfl, hc.1, hc.2.1, hc.2.2⟩, fun _ => rfl⟩, ?_, ?_, ?_, ?_⟩
      · intro r' hr' _ _ _
        obtain rfl : r = r' := Option.some.inj hr'
        rfl
      · intro hne
        exact absurd rfl hne
      · intro h
        exact Option.noConfusion h
      · intro _
        rfl
    · have hb : (!pyTruthy r.error && pyTruthy r.content
          && decide (100 < (stripWs (r.content.getD [])).length)) = false := by
        by_contra hbc
        rw [Bool.not_eq_false] at hbc
        apply hc
        simp only [Bool.and_eq_true, Bool.not_eq_true', decide_eq_true_eq] at hbc
        exact ⟨hbc.1.1, hbc.1.2, hbc.2⟩
      rw [hred, if_neg (by simp [hb])]
      refine ⟨⟨fun h => absurd (show ("Basic Scraping".toList : PyStr) = "Firecrawl".toList from h) (by decide), ?_⟩, ?_, fun _ => rfl, ?_, fun _ => rfl⟩
      · rintro ⟨r', hr', h1, h2, h3⟩
        obtain rfl : r = r' := Option.some.inj hr'
        exact (hc ⟨h1, h2, h3⟩).elim
      · intro r' hr' h1 h2 h3
        obtain rfl : r = r' := Option.some.inj hr'
        exact (hc ⟨h1, h2, h3⟩).elim
      · intro h
        exact Option.noConfusion h

theorem isSchemeLike_ne_nil {s : PyStr} (h : isSchemeLike s = true) : s ≠ [] := by
  intro hs
  rw [hs] at h
  simp [isSchemeLike] at h

theorem urlNetloc_some {nfkc : PyStr → PyStr} {bracketOk : PyStr → Bool}
    {scheme rest sch nl : PyStr}
    (h : urlNetloc nfkc bracketOk scheme rest = some ⟨sch, nl⟩) :
    sch = scheme ∧
    (nl = [] ∨ (rest.take 2 = ['/', '/'] ∧ nl = splitNetloc rest ∧
      badBrackets nl = false ∧
      (hasBothBrackets nl && !bracketOk (bracketedHost nl)) = false ∧
      checknetlocOk nfkc nl = true)) := by
  unfold urlNetloc at h
  by_cases ht : rest.take 2 = ['/', '/']
  · rw [if_pos ht] at h
    by_cases hbk : badBrackets (splitNetloc rest) = true
    · rw [if_pos hbk] at h
      exact Option.noConfusion h
    · rw [if_neg hbk] at h
      by_cases hbr : (hasBothBrackets (splitNetloc rest)
          && !bracketOk (bracketedHost (splitNetloc rest))) = true
      · rw [if_pos hbr] at h
        exact Option.noConfusion h
      · rw [if_neg hbr] at h
        by_cases hchk : (!checknetlocOk nfkc (splitNetloc rest)) = true
        · rw [if_pos hchk] at h
          exact Option.noConfusion h
        · rw [if_neg hchk] at h
          simp only [Option.some.injEq, UrlParts.mk.injEq] at h
          obtain ⟨hs, hn⟩ := h
          subst hn
          refine ⟨hs.symm, Or.inr ⟨ht, rfl, ?_, ?_, ?_⟩⟩
          · simpa using hbk
          · simpa using hbr
          · simpa using hchk
  · rw [if_neg ht] at h
    simp only [Option.some.injEq, UrlParts.mk.injEq] at h
    exact ⟨h.1.symm, Or.inl h.2.symm⟩

theorem pyUrlparse_of_decomp {nfkc : PyStr → PyStr} {bracketOk : PyStr → Bool}
    {u sch rest : PyStr}
    (hdec : removeUnsafeBytes (lstripC0 u) = sch ++ ':' :: '/' :: '/' :: rest)
    (hlike : isSchemeLike sch = true) :
    pyUrlparse nfkc bracketOk u =
      urlNetloc nfkc bracketOk (sch.map Char.toLower) ('/' :: '/' :: rest) := by
  have hsp : splitAtColon (sch ++ ':' :: '/' :: '/' :: rest) =
      some (sch, '/' :: '/' :: rest) :=
    splitAtColon_append sch _ (scheme_no_colon hlike)
  unfold pyUrlparse
  rw [hdec]
  unfold urlsplitRest
  rw [hsp]
  simp only [hlike, if_true]

theorem urlNetloc_pos {nfkc : PyStr → PyStr} {bracketOk : PyStr → Bool}
    {scheme rest : PyStr}
    (hbad : badBrackets (splitNetloc ('/' :: '/' :: rest)) = false)
    (hbr : (hasBothBrackets (splitNetloc ('/' :: '/' :: rest))
      && !bracketOk (bracketedHost (splitNetloc ('/' :: '/' :: rest)))) = false)
    (hchk : checknetlocOk nfkc (splitNetloc ('/' :: '/' :: rest)) = true) :
    urlNetloc nfkc bracketOk scheme ('/' :: '/' :: rest) =
      some ⟨scheme, splitNetloc ('/' :: '/' :: rest)⟩ := by
  unfold urlNetloc
  have ht : List.take 2 ('/' :: '/' :: rest) = ['/', '/'] := rfl
  rw [if_pos ht, if_neg (by simp [hbad]), if_neg (by simp [hbr]),
    if_neg (by simp [hchk])]

/-- C9: the URL validator returns true exactly when the cleaned input
decomposes as a non-empty scheme-like scheme, a colon, a double slash, and a
remainder whose authority component (up to the first `/`, `?` or `#`) is
non-empty and passes the bracket, bracketed-host and NFKC-normalization
checks; any parse failure (the `none` of the parser model, standing for the
`ValueError` cases of `urlsplit`) yields false rather than an exception, the
validator being a total boolean function.  `nfkc` and `bracketOk` are the
external `unicodedata` and `re`/`ipaddress` collaborators. -/
theorem is_valid_url_iff (nfkc : PyStr → PyStr) (bracketOk : PyStr → Bool)
    (u : PyStr) :
    is_valid_url nfkc bracketOk u = true ↔ ValidUrl nfkc bracketOk u := by
  constructor
  · intro h
    rcases hp : pyUrlparse nfkc bracketOk u with _ | ⟨sch, nl⟩
    · unfold is_valid_url at h
      rw [hp] at h
      simp at h
    · unfold is_valid_url at h
      rw [hp] at h
      simp only [Bool.and_eq_true, Bool.not_eq_true', List.isEmpty_eq_false] at h
      obtain ⟨hsch, hnl⟩ := h
      unfold pyUrlparse at hp
      rcases hsp : splitAtColon (removeUnsafeBytes (lstripC0 u)) with _ | ⟨b, a⟩
      · unfold urlsplitRest at hp
        rw [hsp] at hp
        exact absurd (urlNetloc_some hp).1 hsch
      · unfold urlsplitRest at hp
        rw [hsp] at hp
        have hp' : (if isSchemeLike b = true then
            urlNetloc nfkc bracketOk (b.map Char.toLower) a
            else urlNetloc nfkc bracketOk [] (removeUnsafeBytes (lstripC0 u)))
            = some ⟨sch, nl⟩ := hp
        by_cases hlike : isSchemeLike b = true
        · rw [if_pos hlike] at hp'
          obtain ⟨hs, hor⟩ := urlNetloc_some hp'
          rcases hor with hnil | ⟨ht, hn, hbad, hbr, hchk⟩
          · exact absurd hnil hnl
          · obtain ⟨hdec, -⟩ := splitAtColon_eq_some hsp
            have hn' : (a.drop 2).takeWhile (fun c => !isNetlocDelim c) = nl :=
              hn.symm
            refine ⟨b, a.drop 2, ?_, hlike, ?_, ?_, ?_, ?_⟩
            · rw [hdec]
              conv_lhs => rw [take_two_eq ht]
            · rw [hn']
              exact hnl
            · rw [hn']
              exact hbad
            · rw [hn']
              exact hbr
            · rw [hn']
              exact hchk
        · rw [if_neg hlike] at hp'
          exact absurd (urlNetloc_some hp').1 hsch
  · rintro ⟨sch, rest, hdec, hlike, hne, hbad, hbr, hchk⟩
    unfold is_valid_url
    have hbad' : badBrackets (splitNetloc ('/' :: '/' :: rest)) = false := hbad
    have hbr' : (hasBothBrackets (splitNetloc ('/' :: '/' :: rest))
        && !bracketOk (bracketedHost (splitNetloc ('/' :: '/' :: rest)))) = false := hbr
    have hchk' : checknetlocOk nfkc (splitNetloc ('/' :: '/' :: rest)) = true := hchk
    rw [pyUrlparse_of_decomp hdec hlike, urlNetloc_pos hbad' hbr' hchk']
    simp only [Bool.and_eq_true, Bool.not_eq_true', List.isEmpty_eq_false]
    constructor
    · intro hmap
      exact isSchemeLike_ne_nil hlike (List.map_eq_nil_iff.mp hmap)
    · exact hne

/-- Fidelity of the `urlsplit` model, divergent input one: a URL with a
leading space validates after the C0-control/space lstrip (as the program
does on patched CPython), whatever the collaborators do — the all-ASCII
netloc never reaches them. -/
theorem is_valid_url_leading_space (nfkc : PyStr → PyStr) (bracketOk : PyStr → Bool) :
    is_valid_url nfkc bracketOk " http://example.com".toList = true := by
  have hdec : removeUnsafeBytes (lstripC0 " http://example.com".toList) =
      "http".toList ++ ':' :: '/' :: '/' :: "example.com".toList := by decide
  have hbr : (hasBothBrackets (splitNetloc ('/' :: '/' :: "example.com".toList))
      && !bracketOk (bracketedHost (splitNetloc ('/' :: '/' :: "example.com".toList))))
      = false := by
    have hb : hasBothBrackets (splitNetloc ('/' :: '/' :: "example.com".toList))
        = false := by decide
    rw [hb, Bool.false_and]
  have hchk : checknetlocOk nfkc (splitNetloc ('/' :: '/' :: "example.com".toList))
      = true := rfl
  unfold is_valid_url
  rw [pyUrlparse_of_decomp hdec (by decide), urlNetloc_pos (by decide) hbr hchk]
  decide

/-- Fidelity of the `urlsplit` model, divergent input two: a netloc whose
NFKC normalization introduces a slash (`℀` normalizes to `a/c`) makes
`_checknetloc` raise, so the validator returns false — as the program does
on CPython 3.7.3 and later — for every oracle that agrees with
`unicodedata` on this input. -/
theorem is_valid_url_nfkc_reject (nfkc : PyStr → PyStr) (bracketOk : PyStr → Bool)
    (h : nfkc "℀".toList = "a/c".toList) :
    is_valid_url nfkc bracketOk "http://℀".toList = false := by
  have hstrip : netlocStripped "℀".toList = "℀".toList := by decide
  have hchk : checknetlocOk nfkc "℀".toList = false := by
    unfold checknetlocOk
    rw [if_neg (by decide), hstrip, h, if_neg (by decide)]
    decide
  have hdec : removeUnsafeBytes (lstripC0 "http://℀".toList) =
      "http".toList ++ ':' :: '/' :: '/' :: "℀".toList := by decide
  unfold is_valid_url
  rw [pyUrlparse_of_decomp hdec (by decide)]
  unfold urlNetloc
  rw [if_pos (show List.take 2 ('/' :: '/' :: "℀".toList) = ['/', '/'] from rfl),
    if_neg (by decide),
    if_neg (fun hcon => absurd (Bool.and_eq_true .. ▸ hcon).1 (by decide)),
    if_pos ?hfail]
  case hfail =>
    exact show (!checknetlocOk nfkc (splitNetloc ('/' :: '/' :: "℀".toList))) = true by
      rw [show checknetlocOk nfkc (splitNetloc ('/' :: '/' :: "℀".toList)) = false
        from hchk]
      rfl
